import Mathlib

/-!
Verification development for the storefront data layer.

This file shallowly embeds the in-memory catalog store (`src/data/store.ts`)
and the cart codec / cart service (the route helpers `parseCartItems`,
`writeCartItems` and the `/cart` and `/cart/add` route bodies of
`src/server.ts`).  Modelling conventions:

* JavaScript numbers are modelled as exact rationals (`ℚ`); float rounding
  and overflow to `Infinity` on astronomically large literals are not modelled.
  "Not a finite number" (`NaN`, `±Infinity`) is modelled as `Option.none`.
* A JS `Map` keyed by entity id is modelled as an insertion-ordered list of
  entities looked up through their `id` field (the store only ever calls
  `set(e.id, e)`, so the key always equals the `id` field).
* TS `Partial` update records are modelled with one `Option` per field
  (`none` = key absent).  Fields that are themselves optional in the entity
  are given type `Option (Option _)` so that "key present and bound to
  `undefined`" (`some none`) is distinguished from "key absent" (`none`).
* `String.toLower`-style casing follows ASCII (`Char.toLower`), which agrees
  with `String.prototype.toLowerCase` on the ASCII strings of interest.
* All code is sequential (run-to-completion request handling), so a store
  operation is a pure function from store state to store state.
-/

/-! ## Data model (`src/data/models.ts`) -/

structure ProductMedia where
  id : String
  url : String
  altText : String
deriving DecidableEq

structure Product where
  id : String
  name : String
  slug : String
  description : String
  price : ℚ
  currency : String
  media : List ProductMedia
  additionalInfo : List (String × String)
  categoryIds : List String
  customTemplate : Option String
deriving DecidableEq

structure Category where
  id : String
  name : String
  slug : String
  description : Option String
  parentId : Option String
deriving DecidableEq

structure CustomPage where
  id : String
  title : String
  slug : String
  content : String
  template : String
deriving DecidableEq

structure PaymentGatewayConfig where
  provider : String
  enabled : Bool
  publicKey : Option String
  secretKey : Option String
  metadata : Option (List (String × String))
deriving DecidableEq

structure SiteSettings where
  headerHtml : String
  footerHtml : String
  paymentGateways : List PaymentGatewayConfig
deriving DecidableEq

/-- The `DataStore` class state: three id-keyed maps plus the settings
singleton, each map modelled as its insertion-ordered value list. -/
structure DataStore where
  products : List Product
  categories : List Category
  pages : List CustomPage
  settings : SiteSettings
deriving DecidableEq

/-! ## Slug generator (`slugify` in `src/data/store.ts`)

`value.toLowerCase().replace(/[^a-z0-9]+/g, '-').replace(/(^-|-$)+/g, '')`:
lowercase, replace each maximal run of non-alphanumerics by one hyphen,
strip leading/trailing hyphens. -/

def isSlugChar (c : Char) : Bool :=
  (('a' ≤ c) && (c ≤ 'z')) || (('0' ≤ c) && (c ≤ '9'))

/-- First regex: every character outside `[a-z0-9]` becomes `'-'`. -/
def mapDash (l : List Char) : List Char :=
  l.map (fun c => if isSlugChar c then c else '-')

/-- Collapse consecutive hyphens to a single hyphen (so that together with
`mapDash` a whole run `[^a-z0-9]+` yields one `'-'`, as the regex does). -/
def dedupDash : List Char → List Char
  | [] => []
  | [c] => [c]
  | a :: b :: rest =>
    if a == '-' && b == '-' then dedupDash (b :: rest) else a :: dedupDash (b :: rest)

/-- Second regex `/(^-|-$)+/g`: drop the leading and trailing hyphen runs. -/
def trimDash (l : List Char) : List Char :=
  ((l.dropWhile (fun c => c == '-')).reverse.dropWhile (fun c => c == '-')).reverse

def slugify (s : String) : String :=
  String.mk (trimDash (dedupDash (mapDash (s.data.map Char.toLower))))

/-! ## Generic map-as-list operations (JS `Map` keyed by `.id`) -/

/-- `Map.get`: the entity whose id field equals `id` (ids are unique). -/
def mapGet {α : Type} (key : α → String) (l : List α) (id : String) : Option α :=
  l.find? (fun a => key a == id)

/-- `Map.set` under an existing key keeps the insertion position and replaces
the value; under a fresh key it appends. -/
def mapSet {α : Type} (key : α → String) (l : List α) (a : α) : List α :=
  if l.any (fun x => key x == key a) then
    l.map (fun x => if key x == key a then a else x)
  else l ++ [a]

/-- `Map.delete` by key. -/
def mapDelete {α : Type} (key : α → String) (l : List α) (id : String) : List α :=
  l.filter (fun a => !(key a == id))

/-! ## Store operations (`src/data/store.ts`) -/

def listProducts (s : DataStore) : List Product := s.products

def listCategories (s : DataStore) : List Category := s.categories

def getProduct (s : DataStore) (id : String) : Option Product :=
  mapGet Product.id s.products id

def getCategory (s : DataStore) (id : String) : Option Category :=
  mapGet Category.id s.categories id

/-- `removeCategory`: delete the category, then strip its id from every
product's `categoryIds` (writing each product back under its own id). -/
def removeCategory (s : DataStore) (id : String) : DataStore :=
  { s with
    categories := mapDelete Category.id s.categories id,
    products := s.products.map (fun p =>
      { p with categoryIds := p.categoryIds.filter (fun cid => !(cid == id)) }) }

def removeProduct (s : DataStore) (id : String) : DataStore :=
  { s with products := mapDelete Product.id s.products id }

/-- Partial update for a Category (`Partial<Omit<Category, 'id'>>`).
`none` = key absent; for the optional entity fields `description`/`parentId`,
`some none` = key present and bound to `undefined`. -/
structure CategoryUpdate where
  name : Option String := none
  slug : Option String := none
  description : Option (Option String) := none
  parentId : Option (Option String) := none

/-- JS truthiness of an (optional) string-valued field: present and nonempty. -/
def strTruthy : Option String → Bool
  | none => false
  | some s => !(s == "")

/-- The merge `{ ...category, ...update }` followed by
`if (update.name) updated.slug = slugify(update.name)`.
Note: `updateCategory` has no explicit-slug re-normalization branch. -/
def applyCategoryUpdate (c : Category) (u : CategoryUpdate) : Category :=
  let merged : Category :=
    { id := c.id,
      name := u.name.getD c.name,
      slug := u.slug.getD c.slug,
      description := u.description.getD c.description,
      parentId := u.parentId.getD c.parentId }
  match u.name with
  | some n => if n == "" then merged else { merged with slug := slugify n }
  | none => merged

def updateCategory (s : DataStore) (id : String) (u : CategoryUpdate) :
    DataStore × Option Category :=
  match mapGet Category.id s.categories id with
  | none => (s, none)
  | some c =>
    let updated := applyCategoryUpdate c u
    ({ s with categories := mapSet Category.id s.categories updated }, some updated)

/-- Partial update for a Product (`Partial<Omit<Product, 'id'>>`). -/
structure ProductUpdate where
  name : Option String := none
  slug : Option String := none
  description : Option String := none
  price : Option ℚ := none
  currency : Option String := none
  media : Option (List ProductMedia) := none
  additionalInfo : Option (List (String × String)) := none
  categoryIds : Option (List String) := none
  customTemplate : Option (Option String) := none

/-- Merge, then `if (update.name && !update.slug) slug = slugify(name)`,
then `if (update.slug) slug = slugify(update.slug)`. -/
def applyProductUpdate (p : Product) (u : ProductUpdate) : Product :=
  let merged : Product :=
    { id := p.id,
      name := u.name.getD p.name,
      slug := u.slug.getD p.slug,
      description := u.description.getD p.description,
      price := u.price.getD p.price,
      currency := u.currency.getD p.currency,
      media := u.media.getD p.media,
      additionalInfo := u.additionalInfo.getD p.additionalInfo,
      categoryIds := u.categoryIds.getD p.categoryIds,
      customTemplate := u.customTemplate.getD p.customTemplate }
  let s1 :=
    if strTruthy u.name && !(strTruthy u.slug) then
      { merged with slug := slugify (u.name.getD "") }
    else merged
  if strTruthy u.slug then { s1 with slug := slugify (u.slug.getD "") } else s1

def updateProduct (s : DataStore) (id : String) (u : ProductUpdate) :
    DataStore × Option Product :=
  match mapGet Product.id s.products id with
  | none => (s, none)
  | some p =>
    let updated := applyProductUpdate p u
    ({ s with products := mapSet Product.id s.products updated }, some updated)

/-- Partial update for a CustomPage (`Partial<Omit<CustomPage, 'id'>>`). -/
structure PageUpdate where
  title : Option String := none
  slug : Option String := none
  content : Option String := none
  template : Option String := none

/-- Merge, then `if (update.title && !update.slug) slug = slugify(title)`,
then `if (update.slug) slug = slugify(update.slug)`. -/
def applyPageUpdate (p : CustomPage) (u : PageUpdate) : CustomPage :=
  let merged : CustomPage :=
    { id := p.id,
      title := u.title.getD p.title,
      slug := u.slug.getD p.slug,
      content := u.content.getD p.content,
      template := u.template.getD p.template }
  let s1 :=
    if strTruthy u.title && !(strTruthy u.slug) then
      { merged with slug := slugify (u.title.getD "") }
    else merged
  if strTruthy u.slug then { s1 with slug := slugify (u.slug.getD "") } else s1

def updatePage (s : DataStore) (id : String) (u : PageUpdate) :
    DataStore × Option CustomPage :=
  match mapGet CustomPage.id s.pages id with
  | none => (s, none)
  | some p =>
    let updated := applyPageUpdate p u
    ({ s with pages := mapSet CustomPage.id s.pages updated }, some updated)

/-- Partial update for the settings singleton (`Partial<SiteSettings>`). -/
structure SettingsUpdate where
  headerHtml : Option String := none
  footerHtml : Option String := none
  paymentGateways : Option (List PaymentGatewayConfig) := none

/-- `this.settings = { ...this.settings, ...settings }`. -/
def updateSettings (s : DataStore) (u : SettingsUpdate) : DataStore × SiteSettings :=
  let ns : SiteSettings :=
    { headerHtml := u.headerHtml.getD s.settings.headerHtml,
      footerHtml := u.footerHtml.getD s.settings.footerHtml,
      paymentGateways := u.paymentGateways.getD s.settings.paymentGateways }
  ({ s with settings := ns }, ns)

/-! ## JSON values and `JSON.parse`

The cart cookie is an untrusted JSON string.  `JsonVal` is the value space of
`JSON.parse`; `jsonParse` models `JSON.parse` itself (returning `none` where
`JSON.parse` throws a `SyntaxError`).  Numbers are exact rationals. -/

inductive JsonVal where
  | null : JsonVal
  | bool (b : Bool) : JsonVal
  | num (q : ℚ) : JsonVal
  | str (s : String) : JsonVal
  | arr (elems : List JsonVal) : JsonVal
  | obj (fields : List (String × JsonVal)) : JsonVal

def isWs (c : Char) : Bool :=
  c == ' ' || c == '\t' || c == '\n' || c == '\r'

def skipWs (cs : List Char) : List Char := cs.dropWhile isWs

def isDigitC (c : Char) : Bool := ('0' ≤ c) && (c ≤ '9')

def digitVal (c : Char) : Nat := c.toNat - '0'.toNat

def hexVal (c : Char) : Option Nat :=
  if ('0' ≤ c) && (c ≤ '9') then some (c.toNat - '0'.toNat)
  else if ('a' ≤ c) && (c ≤ 'f') then some (c.toNat - 'a'.toNat + 10)
  else if ('A' ≤ c) && (c ≤ 'F') then some (c.toNat - 'A'.toNat + 10)
  else none

def digitsToNat (l : List Char) : Nat :=
  l.foldl (fun acc c => acc * 10 + digitVal c) 0

def takeDigits (cs : List Char) : List Char × List Char :=
  (cs.takeWhile isDigitC, cs.dropWhile isDigitC)

def tenPow (n : Nat) : ℚ := (10 : ℚ) ^ n

def applyExp (q : ℚ) (e : Int) : ℚ :=
  if 0 ≤ e then q * tenPow e.toNat else q / tenPow (-e).toNat

/-- Fraction part `('.' digits+)?` of a JSON number. -/
def parseFrac : List Char → Option (List Char × List Char)
  | '.' :: rest =>
    let ds := rest.takeWhile isDigitC
    if ds.isEmpty then none else some (ds, rest.dropWhile isDigitC)
  | cs => some (([] : List Char), cs)

def parseExpTail (cs : List Char) : Option (Int × List Char) :=
  let sgnRest : Int × List Char :=
    match cs with
    | '+' :: r => (1, r)
    | '-' :: r => (-1, r)
    | _ => (1, cs)
  let ds := sgnRest.2.takeWhile isDigitC
  if ds.isEmpty then none
  else some (sgnRest.1 * (digitsToNat ds : Int), sgnRest.2.dropWhile isDigitC)

/-- Exponent part `([eE] sign? digits+)?` of a JSON number. -/
def parseExp : List Char → Option (Int × List Char)
  | 'e' :: rest => parseExpTail rest
  | 'E' :: rest => parseExpTail rest
  | cs => some ((0 : Int), cs)

/-- JSON number grammar: `-? (0 | [1-9][0-9]*) ('.' [0-9]+)? ([eE][+-]?[0-9]+)?`. -/
def parseNumber (cs : List Char) : Option (ℚ × List Char) :=
  let negRest : Bool × List Char :=
    match cs with
    | '-' :: rest => (true, rest)
    | _ => (false, cs)
  match negRest.2 with
  | [] => none
  | c :: rest =>
    if isDigitC c then
      let intRest : List Char × List Char :=
        if c == '0' then (['0'], rest) else takeDigits negRest.2
      match parseFrac intRest.2 with
      | none => none
      | some (fracDs, cs3) =>
        match parseExp cs3 with
        | none => none
        | some (e, cs4) =>
          let mantissa : ℚ :=
            (digitsToNat intRest.1 : ℚ) + (digitsToNat fracDs : ℚ) / tenPow fracDs.length
          some (applyExp (if negRest.1 then -mantissa else mantissa) e, cs4)
    else none

/-- One escape character after a backslash (the single-character escapes). -/
def escChar : Char → Option Char
  | '"' => some '"'
  | '\\' => some '\\'
  | '/' => some '/'
  | 'b' => some '\x08'
  | 'f' => some '\x0c'
  | 'n' => some '\n'
  | 'r' => some '\r'
  | 't' => some '\t'
  | _ => none

/-- JSON string body after the opening quote: content chars plus the rest
after the closing quote. -/
def parseStrBody : Nat → List Char → Option (List Char × List Char)
  | 0, _ => none
  | _ + 1, [] => none
  | fuel + 1, c :: rest =>
    if c == '"' then some (([] : List Char), rest)
    else if c == '\\' then
      match rest with
      | [] => none
      | e :: rest2 =>
        match escChar e with
        | some d => (parseStrBody fuel rest2).map (fun br => (d :: br.1, br.2))
        | none =>
          if e == 'u' then
            match rest2 with
            | a :: b :: c2 :: d2 :: rest3 =>
              match hexVal a, hexVal b, hexVal c2, hexVal d2 with
              | some ha, some hb, some hc, some hd =>
                let n := ((ha * 16 + hb) * 16 + hc) * 16 + hd
                (parseStrBody fuel rest3).map (fun br => (Char.ofNat n :: br.1, br.2))
              | _, _, _, _ => none
            | _ => none
          else none
    else (parseStrBody fuel rest).map (fun br => (c :: br.1, br.2))

/-- Consume an exact literal such as `rue` / `alse` / `ull`. -/
def eatLit : List Char → List Char → Option (List Char)
  | [], cs => some cs
  | p :: ps, c :: cs => if c == p then eatLit ps cs else none
  | _ :: _, [] => none

/-- Duplicate keys in a JSON object: the later occurrence wins, keeping the
first occurrence's position (JS object semantics). -/
def objSet (fields : List (String × JsonVal)) (k : String) (v : JsonVal) :
    List (String × JsonVal) :=
  if fields.any (fun kv => kv.1 == k) then
    fields.map (fun kv => if kv.1 == k then (k, v) else kv)
  else fields ++ [(k, v)]

mutual

def parseValue : Nat → List Char → Option (JsonVal × List Char)
  | 0, _ => none
  | fuel + 1, cs =>
    match skipWs cs with
    | [] => none
    | c :: rest =>
      if c == '\x7b' then
        match skipWs rest with
        | '\x7d' :: r2 => some (JsonVal.obj [], r2)
        | cs2 => parseObjRest fuel [] cs2
      else if c == '[' then
        match skipWs rest with
        | ']' :: r2 => some (JsonVal.arr [], r2)
        | cs2 => parseArrRest fuel [] cs2
      else if c == '"' then
        (parseStrBody (rest.length + 1) rest).map
          (fun br => (JsonVal.str (String.mk br.1), br.2))
      else if c == 't' then
        (eatLit ['r', 'u', 'e'] rest).map (fun r => (JsonVal.bool true, r))
      else if c == 'f' then
        (eatLit ['a', 'l', 's', 'e'] rest).map (fun r => (JsonVal.bool false, r))
      else if c == 'n' then
        (eatLit ['u', 'l', 'l'] rest).map (fun r => (JsonVal.null, r))
      else
        (parseNumber (c :: rest)).map (fun qr => (JsonVal.num qr.1, qr.2))

def parseArrRest : Nat → List JsonVal → List Char → Option (JsonVal × List Char)
  | 0, _, _ => none
  | fuel + 1, acc, cs =>
    match parseValue fuel cs with
    | none => none
    | some (j, cs1) =>
      match skipWs cs1 with
      | ',' :: cs2 => parseArrRest fuel (acc ++ [j]) cs2
      | ']' :: cs2 => some (JsonVal.arr (acc ++ [j]), cs2)
      | _ => none

def parseObjRest : Nat → List (String × JsonVal) → List Char →
    Option (JsonVal × List Char)
  | 0, _, _ => none
  | fuel + 1, acc, cs =>
    match skipWs cs with
    | '"' :: cs1 =>
      match parseStrBody (cs1.length + 1) cs1 with
      | none => none
      | some (keyChars, cs2) =>
        match skipWs cs2 with
        | ':' :: cs3 =>
          match parseValue fuel cs3 with
          | none => none
          | some (v, cs4) =>
            match skipWs cs4 with
            | ',' :: cs5 => parseObjRest fuel (objSet acc (String.mk keyChars) v) cs5
            | '\x7d' :: cs5 => some (JsonVal.obj (objSet acc (String.mk keyChars) v), cs5)
            | _ => none
        | _ => none
    | _ => none

end

/-- `JSON.parse`: parse one value, allow trailing whitespace only. -/
def jsonParse (s : String) : Option JsonVal :=
  match parseValue (s.data.length + 2) s.data with
  | some (j, rest) => if (skipWs rest).isEmpty then some j else none
  | none => none

def JsonVal.isArr : JsonVal → Bool
  | JsonVal.arr _ => true
  | _ => false

/-! ## JS numeric coercion (`Number(...)`, used on `item.quantity`)

`Number.isFinite(Number(x)) ? Number(x) : 0` distinguishes only "finite"
from "NaN or ±Infinity", so `jsToNumber` returns `none` exactly in the
non-finite cases. -/

def radixDigit (r : Nat) (c : Char) : Option Nat :=
  match hexVal c with
  | some d => if d < r then some d else none
  | none => none

/-- `Number("0x…")` / `0o…` / `0b…` bodies: all digits of the radix. -/
def parseRadix (r : Nat) (cs : List Char) : Option ℚ :=
  if cs.isEmpty then none
  else
    (cs.foldl
      (fun acc c =>
        match acc, radixDigit r c with
        | some a, some d => some (a * r + d)
        | _, _ => none)
      (some (0 : Nat))).map (fun n => (n : ℚ))

/-- A full JS `StrDecimalLiteral` (unsigned): `digits ('.' digits*)? exp?`
or `'.' digits exp?`; the whole input must be consumed. -/
def parseDecFull (cs : List Char) : Option ℚ :=
  let intDs := cs.takeWhile isDigitC
  let cs1 := cs.dropWhile isDigitC
  let fracRest : List Char × List Char :=
    match cs1 with
    | '.' :: r => (r.takeWhile isDigitC, r.dropWhile isDigitC)
    | _ => ([], cs1)
  if intDs.isEmpty && fracRest.1.isEmpty then none
  else
    match parseExp fracRest.2 with
    | none => none
    | some (e, cs3) =>
      if cs3.isEmpty then
        some (applyExp
          ((digitsToNat intDs : ℚ) + (digitsToNat fracRest.1 : ℚ) / tenPow fracRest.1.length) e)
      else none

/-- `Number(string)`: trim whitespace; empty → `0`; radix-prefixed integers;
`Infinity` (non-finite) → `none`; else a full decimal literal, or NaN. -/
def jsStrToNumber (s : String) : Option ℚ :=
  let cs := ((s.data.dropWhile isWs).reverse.dropWhile isWs).reverse
  if cs.isEmpty then some 0
  else
    match cs with
    | '0' :: 'x' :: rest => parseRadix 16 rest
    | '0' :: 'X' :: rest => parseRadix 16 rest
    | '0' :: 'o' :: rest => parseRadix 8 rest
    | '0' :: 'O' :: rest => parseRadix 8 rest
    | '0' :: 'b' :: rest => parseRadix 2 rest
    | '0' :: 'B' :: rest => parseRadix 2 rest
    | _ =>
      let negRest : Bool × List Char :=
        match cs with
        | '-' :: r => (true, r)
        | '+' :: r => (false, r)
        | _ => (false, cs)
      if negRest.2 = ['I', 'n', 'f', 'i', 'n', 'i', 't', 'y'] then none
      else (parseDecFull negRest.2).map (fun q => if negRest.1 then -q else q)

/-- `Number(v)` where `v` is a single-element array: JS stringifies the array
(`String([x])`) and parses that, so `[null] → 0`, `[true] → NaN`, nested
single chains unwrap, and two or more elements produce a comma → NaN. -/
def jsToNumberArr1 : JsonVal → Option ℚ
  | JsonVal.null => some 0
  | JsonVal.bool _ => none
  | JsonVal.num q => some q
  | JsonVal.str s => jsStrToNumber s
  | JsonVal.obj _ => none
  | JsonVal.arr [] => some 0
  | JsonVal.arr [x] => jsToNumberArr1 x
  | JsonVal.arr _ => none

/-- `Number(v)` on a JSON-derived value, `none` = not a finite number. -/
def jsToNumber : JsonVal → Option ℚ
  | JsonVal.null => some 0
  | JsonVal.bool b => some (if b then 1 else 0)
  | JsonVal.num q => some q
  | JsonVal.str s => jsStrToNumber s
  | JsonVal.obj _ => none
  | JsonVal.arr [] => some 0
  | JsonVal.arr [x] => jsToNumberArr1 x
  | JsonVal.arr _ => none

/-! ## Cart codec (`parseCartItems` / `writeCartItems` in `src/server.ts`) -/

structure CartItem where
  productId : String
  quantity : ℚ
deriving DecidableEq

/-- Property access `j.k` on a non-null JSON value: a field of an object,
`undefined` (`none`) otherwise. -/
def getField? (j : JsonVal) (k : String) : Option JsonVal :=
  match j with
  | JsonVal.obj fields => (fields.find? (fun kv => kv.1 == k)).map (fun kv => kv.2)
  | _ => none

/-- The element mapping of `parseCartItems`:
`productId: typeof item.productId === 'string' ? item.productId : ''` and
`quantity: Number.isFinite(Number(item.quantity)) ? Number(item.quantity) : 0`. -/
def coerceItem (j : JsonVal) : CartItem :=
  { productId :=
      match getField? j "productId" with
      | some (JsonVal.str s) => s
      | _ => "",
    quantity :=
      match getField? j "quantity" with
      | none => 0
      | some v => (jsToNumber v).getD 0 }

/-- One element of the `.map` callback: property access on `null` throws a
`TypeError` (caught by the surrounding `try`), every other element is
coerced. -/
def sanitizeElem (j : JsonVal) : Except Unit CartItem :=
  match j with
  | JsonVal.null => Except.error ()
  | _ => Except.ok (coerceItem j)

/-- `Array.prototype.map` with exception propagation: the first throwing
element aborts the whole map. -/
def mapAll : List JsonVal → Except Unit (List CartItem)
  | [] => Except.ok []
  | j :: rest =>
    match sanitizeElem j with
    | Except.error e => Except.error e
    | Except.ok i =>
      match mapAll rest with
      | Except.error e => Except.error e
      | Except.ok is => Except.ok (i :: is)

/-- The filter `item.productId && item.quantity > 0` (string truthiness). -/
def keepItem (i : CartItem) : Bool :=
  !(i.productId == "") && decide (0 < i.quantity)

/-- The body of `parseCartItems` after a successful `JSON.parse`: non-array →
empty cart; array → map (exceptions caught as the empty cart) then filter. -/
def parseCartJson (j : JsonVal) : List CartItem :=
  match j with
  | JsonVal.arr xs =>
    match mapAll xs with
    | Except.ok items => items.filter keepItem
    | Except.error _ => []
  | _ => []

/-- `parseCartItems`: `none` models an absent cookie, `some raw` the raw
cookie string.  `if (!raw)` also treats the empty string as absent; a
`JSON.parse` failure is caught and yields the empty cart.  (The
request-object cache `req.__cartItems` is dropped: the function is
referentially transparent per request.) -/
def parseCartItems (raw? : Option String) : List CartItem :=
  match raw? with
  | none => []
  | some raw =>
    if raw = "" then []
    else
      match jsonParse raw with
      | some j => parseCartJson j
      | none => []

/-- The JSON object `{productId, quantity}` that `JSON.stringify` emits for
one cart item (keys in insertion order). -/
def itemJson (i : CartItem) : JsonVal :=
  JsonVal.obj [("productId", JsonVal.str i.productId), ("quantity", JsonVal.num i.quantity)]

/-- `writeCartItems`: filters non-positive quantities and stringifies.  We
model the cookie payload by its JSON value; the text transport
(`JSON.stringify` / cookie round-trip / `JSON.parse`) is value-faithful and
appears in the theorems as the hypothesis `jsonParse s = some (writeCartItems items)`. -/
def writeCartItems (items : List CartItem) : JsonVal :=
  JsonVal.arr ((items.filter (fun i => decide (0 < i.quantity))).map itemJson)

/-! ## Cart service (`/cart/add` and `/cart` route bodies in `src/server.ts`) -/

/-- `parseInt(s, 10)`: trim leading whitespace, optional sign, longest
decimal-digit run; no digits → NaN (`none`). -/
def jsParseInt (s : String) : Option Int :=
  let cs := s.data.dropWhile isWs
  let sgnRest : Int × List Char :=
    match cs with
    | '-' :: r => (-1, r)
    | '+' :: r => (1, r)
    | _ => (1, cs)
  let ds := sgnRest.2.takeWhile isDigitC
  if ds.isEmpty then none else some (sgnRest.1 * (digitsToNat ds : Int))

/-- `Math.max(1, Number.parseInt(quantityRaw ?? '1', 10) || 1)`:
NaN and `0` fall back to `1` through `|| 1`, then clamp below at `1`. -/
def normalizeQty (qraw : Option String) : Int :=
  let n := jsParseInt (qraw.getD "1")
  let orOne : Int :=
    match n with
    | none => 1
    | some k => if k = 0 then 1 else k
  max 1 orOne

/-- `existingItem.quantity += quantity` applied to the first item with the
given productId (`Array.prototype.find`); later duplicates untouched. -/
def incFirst : List CartItem → String → ℚ → List CartItem
  | [], _, _ => []
  | i :: rest, pid, q =>
    if i.productId == pid then { i with quantity := i.quantity + q } :: rest
    else i :: incFirst rest pid q

/-- The `/cart/add` route body on cart values: `none` productId models a
non-string `req.body.productId` (rejected before the store lookup); an
unresolved product rejects silently; otherwise merge-or-append. -/
def addItem (items : List CartItem) (pidRaw : Option String) (qraw : Option String)
    (s : DataStore) : List CartItem :=
  match pidRaw with
  | none => items
  | some pid =>
    match getProduct s pid with
    | none => items
    | some p =>
      let q : ℚ := (normalizeQty qraw : ℤ)
      if items.any (fun i => i.productId == p.id) then incFirst items p.id q
      else items ++ [{ productId := p.id, quantity := q }]

/-! ### Reference-level cart model (for the aliasing behaviour of `/cart/add`)

JS cart items are heap records; `const items = [...parseCartItems(request)]`
copies the *array* but shares the item records.  A cart is a list of cell
ids into a heap; `addItemRef` mirrors the route body on this model. -/

structure CartHeap where
  cells : List (Nat × CartItem)
  fresh : Nat
deriving DecidableEq

def heapRead (h : CartHeap) (r : Nat) : Option CartItem :=
  (h.cells.find? (fun c => c.1 == r)).map (fun c => c.2)

/-- Dereference a cart (a list of record ids) against the heap. -/
def readCart (h : CartHeap) (ids : List Nat) : List CartItem :=
  ids.filterMap (heapRead h)

/-- `items.find((item) => item.productId === product.id)` over references. -/
def findRef (h : CartHeap) (ids : List Nat) (pid : String) : Option Nat :=
  ids.find? (fun r =>
    match heapRead h r with
    | some i => i.productId == pid
    | none => false)

/-- `existingItem.quantity += quantity`: an in-place update of one heap cell. -/
def heapInc (h : CartHeap) (r : Nat) (q : ℚ) : CartHeap :=
  { h with cells := h.cells.map (fun c =>
      if c.1 == r then (c.1, { c.2 with quantity := c.2.quantity + q }) else c) }

/-- The `/cart/add` route body on the reference model.  The returned list is
the shallow copy `[...items]` after the route's push, the heap carries the
record mutations. -/
def addItemRef (h : CartHeap) (ids : List Nat) (pidRaw : Option String)
    (qraw : Option String) (s : DataStore) : CartHeap × List Nat :=
  match pidRaw with
  | none => (h, ids)
  | some pid =>
    match getProduct s pid with
    | none => (h, ids)
    | some p =>
      let q : ℚ := (normalizeQty qraw : ℤ)
      match findRef h ids p.id with
      | some r => (heapInc h r q, ids)
      | none =>
        ({ cells := h.cells ++ [(h.fresh, { productId := p.id, quantity := q })],
           fresh := h.fresh + 1 }, ids ++ [h.fresh])

/-! ### Cart pricing (`/cart` route body) -/

structure PricedLine where
  product : Product
  quantity : ℚ
  lineTotal : ℚ
deriving DecidableEq

/-- The `/cart` pricing: resolve each item, drop missing products,
`lineTotal = price * quantity`, `total = Σ lineTotal` (left fold from 0). -/
def priceCart (items : List CartItem) (s : DataStore) : List PricedLine × ℚ :=
  let lines := items.filterMap (fun i =>
    (getProduct s i.productId).map (fun p =>
      { product := p, quantity := i.quantity, lineTotal := p.price * i.quantity }))
  (lines, lines.foldl (fun sum l => sum + l.lineTotal) 0)

/-! ## Concrete demonstration data (for witnesses and counterexamples) -/

def demoProduct : Product :=
  { id := "p1", name := "Demo Tee", slug := "demo-tee", description := "A demo product",
    price := 10, currency := "USD", media := [], additionalInfo := [],
    categoryIds := ["c1"], customTemplate := none }

def demoCategory : Category :=
  { id := "c1", name := "Cat", slug := "cat", description := none, parentId := none }

/-- A child category attached to `demoCategory`. -/
def demoCategory2 : Category :=
  { id := "c2", name := "Kit", slug := "kit", description := some "d", parentId := some "c1" }

def demoPage : CustomPage :=
  { id := "g1", title := "About", slug := "about", content := "<p>hi</p>",
    template := "custom-page.njk" }

def demoSettings : SiteSettings :=
  { headerHtml := "<h1>H</h1>", footerHtml := "<p>F</p>", paymentGateways := [] }

def demoStore : DataStore :=
  { products := [demoProduct], categories := [demoCategory, demoCategory2],
    pages := [demoPage], settings := demoSettings }

/-- A one-record cart heap: cell `0` holds two units of `p1`. -/
def cexHeap : CartHeap := { cells := [(0, { productId := "p1", quantity := 2 })], fresh := 1 }

/-! ## Theorems -/

/-- C2: after `removeCategory c`, no product listed by the store has `c`
among its `categoryIds`, and the category itself is gone; the operation is a
single pure state transition (run-to-completion), so the post-state is what
every later observation sees. -/
theorem removeCategory_cascade (s : DataStore) (c : String) :
    (∀ p ∈ listProducts (removeCategory s c), c ∉ p.categoryIds) ∧
    getCategory (removeCategory s c) c = none := by
  constructor
  · intro p hp hc
    simp only [listProducts, removeCategory, List.mem_map] at hp
    obtain ⟨q, _, rfl⟩ := hp
    simp only [List.mem_filter] at hc
    simp at hc
  · simp only [getCategory, removeCategory, mapGet, mapDelete]
    rw [List.find?_eq_none]
    intro a ha
    simp only [List.mem_filter] at ha
    simp_all

/-- C2 witness: in the demo store, the product (whose only category was
`c1`) no longer references `c1` after `removeCategory "c1"`. -/
theorem removeCategory_cascade_witness :
    "c1" ∉ ({ demoProduct with categoryIds := [] } : Product).categoryIds :=
  (removeCategory_cascade demoStore "c1").1 _ (by with_unfolding_all decide)

/-! ### Update lemmas shared by the slug and partial-update claims -/

theorem updateCategory_found (s : DataStore) (id : String) (u : CategoryUpdate)
    (c : Category) (h : mapGet Category.id s.categories id = some c) :
    (updateCategory s id u).2 = some (applyCategoryUpdate c u) := by
  unfold updateCategory
  rw [h]

theorem updateProduct_found (s : DataStore) (id : String) (u : ProductUpdate)
    (p : Product) (h : mapGet Product.id s.products id = some p) :
    (updateProduct s id u).2 = some (applyProductUpdate p u) := by
  unfold updateProduct
  rw [h]

theorem updatePage_found (s : DataStore) (id : String) (u : PageUpdate)
    (p : CustomPage) (h : mapGet CustomPage.id s.pages id = some p) :
    (updatePage s id u).2 = some (applyPageUpdate p u) := by
  unfold updatePage
  rw [h]

/-- If an update result is `some q`, the entity was found. -/
theorem updateCategory_some (s : DataStore) (id : String) (u : CategoryUpdate)
    (q : Category) (h : (updateCategory s id u).2 = some q) :
    ∃ c, mapGet Category.id s.categories id = some c ∧ q = applyCategoryUpdate c u := by
  unfold updateCategory at h
  cases hm : mapGet Category.id s.categories id with
  | none => rw [hm] at h; cases h
  | some c =>
    rw [hm] at h
    exact ⟨c, rfl, (Option.some.inj h).symm⟩

theorem updateProduct_some (s : DataStore) (id : String) (u : ProductUpdate)
    (q : Product) (h : (updateProduct s id u).2 = some q) :
    ∃ p, mapGet Product.id s.products id = some p ∧ q = applyProductUpdate p u := by
  unfold updateProduct at h
  cases hm : mapGet Product.id s.products id with
  | none => rw [hm] at h; cases h
  | some p =>
    rw [hm] at h
    exact ⟨p, rfl, (Option.some.inj h).symm⟩

theorem updatePage_some (s : DataStore) (id : String) (u : PageUpdate)
    (q : CustomPage) (h : (updatePage s id u).2 = some q) :
    ∃ p, mapGet CustomPage.id s.pages id = some p ∧ q = applyPageUpdate p u := by
  unfold updatePage at h
  cases hm : mapGet CustomPage.id s.pages id with
  | none => rw [hm] at h; cases h
  | some p =>
    rw [hm] at h
    exact ⟨p, rfl, (Option.some.inj h).symm⟩

/-! ### C3: explicit slug override -/

/-- C3 counterexample: for a Category, an explicit slug override is *not*
re-normalized through the slug generator — `updateCategory` merges it
verbatim (there is no `if (update.slug)` branch in `updateCategory`). -/
theorem explicit_slug_cex :
    (updateCategory demoStore "c1" { slug := some "My Slug!" }).2.map Category.slug =
      some "My Slug!" ∧
    slugify "My Slug!" = "my-slug" ∧
    ¬ ((updateCategory demoStore "c1" { slug := some "My Slug!" }).2.map Category.slug =
      some (slugify "My Slug!")) := by
  refine ⟨?_, ?_, ?_⟩ <;> with_unfolding_all decide

/-- C3 amended: for Products and Pages a supplied non-empty slug always wins
and is re-normalized through `slugify`; for Categories the supplied slug is
stored verbatim when no name is supplied, and a supplied non-empty name wins
over any supplied slug (the slug becomes `slugify name`). -/
theorem explicit_slug_amended :
    (∀ (s : DataStore) (id : String) (u : ProductUpdate) (q : Product) (sl : String),
      u.slug = some sl → ¬ sl = "" → (updateProduct s id u).2 = some q →
      q.slug = slugify sl) ∧
    (∀ (s : DataStore) (id : String) (u : PageUpdate) (q : CustomPage) (sl : String),
      u.slug = some sl → ¬ sl = "" → (updatePage s id u).2 = some q →
      q.slug = slugify sl) ∧
    (∀ (s : DataStore) (id : String) (u : CategoryUpdate) (q : Category) (sl : String),
      u.slug = some sl → u.name = none → (updateCategory s id u).2 = some q →
      q.slug = sl) ∧
    (∀ (s : DataStore) (id : String) (u : CategoryUpdate) (q : Category) (n : String),
      u.name = some n → ¬ n = "" → (updateCategory s id u).2 = some q →
      q.slug = slugify n) := by
  refine ⟨?_, ?_, ?_, ?_⟩
  · intro s id u q sl hsl hne hq
    obtain ⟨p, _, rfl⟩ := updateProduct_some s id u q hq
    simp [applyProductUpdate, hsl, strTruthy, hne]
  · intro s id u q sl hsl hne hq
    obtain ⟨p, _, rfl⟩ := updatePage_some s id u q hq
    simp [applyPageUpdate, hsl, strTruthy, hne]
  · intro s id u q sl hsl hn hq
    obtain ⟨c, _, rfl⟩ := updateCategory_some s id u q hq
    simp [applyCategoryUpdate, hn, hsl]
  · intro s id u q n hn hne hq
    obtain ⟨c, _, rfl⟩ := updateCategory_some s id u q hq
    simp [applyCategoryUpdate, hn, hne]

/-- C3 witness: updating the demo product with explicit slug `"New Slug!"`
(and a name in the same partial) stores `slugify "New Slug!" = "new-slug"`. -/
theorem explicit_slug_amended_witness :
    (applyProductUpdate demoProduct { name := some "Other", slug := some "New Slug!" }).slug =
      slugify "New Slug!" :=
  explicit_slug_amended.1 demoStore "p1" _ _ "New Slug!" rfl (by decide)
    (by with_unfolding_all rfl)

/-! ### C10: partial-update merge semantics -/

theorem applyCategoryUpdate_parentId (c : Category) (u : CategoryUpdate) :
    (applyCategoryUpdate c u).parentId = u.parentId.getD c.parentId := by
  unfold applyCategoryUpdate
  cases u.name with
  | none => rfl
  | some n => by_cases h : (n == "") = true <;> simp [h]

theorem applyCategoryUpdate_description (c : Category) (u : CategoryUpdate) :
    (applyCategoryUpdate c u).description = u.description.getD c.description := by
  unfold applyCategoryUpdate
  cases u.name with
  | none => rfl
  | some n => by_cases h : (n == "") = true <;> simp [h]

theorem applyCategoryUpdate_name (c : Category) (u : CategoryUpdate) :
    (applyCategoryUpdate c u).name = u.name.getD c.name := by
  unfold applyCategoryUpdate
  cases u.name with
  | none => rfl
  | some n => by_cases h : (n == "") = true <;> simp [h]

theorem applyCategoryUpdate_slug_of_name_none (c : Category) (u : CategoryUpdate)
    (hn : u.name = none) :
    (applyCategoryUpdate c u).slug = u.slug.getD c.slug := by
  unfold applyCategoryUpdate
  rw [hn]

theorem applyProductUpdate_customTemplate (p : Product) (u : ProductUpdate) :
    (applyProductUpdate p u).customTemplate = u.customTemplate.getD p.customTemplate := by
  unfold applyProductUpdate
  dsimp only
  split <;> split <;> rfl

theorem applyProductUpdate_price (p : Product) (u : ProductUpdate) :
    (applyProductUpdate p u).price = u.price.getD p.price := by
  unfold applyProductUpdate
  dsimp only
  split <;> split <;> rfl

theorem applyProductUpdate_categoryIds (p : Product) (u : ProductUpdate) :
    (applyProductUpdate p u).categoryIds = u.categoryIds.getD p.categoryIds := by
  unfold applyProductUpdate
  dsimp only
  split <;> split <;> rfl

theorem applyPageUpdate_content (p : CustomPage) (u : PageUpdate) :
    (applyPageUpdate p u).content = u.content.getD p.content := by
  unfold applyPageUpdate
  dsimp only
  split <;> split <;> rfl

theorem applyPageUpdate_template (p : CustomPage) (u : PageUpdate) :
    (applyPageUpdate p u).template = u.template.getD p.template := by
  unfold applyPageUpdate
  dsimp only
  split <;> split <;> rfl

/-- C10 counterexample: the derived `slug` field changes even though the
`slug` key is entirely absent from the partial — updating only the name of
the demo category recomputes its slug from `"New"`. -/
theorem partial_update_cex :
    ({ name := some "New" } : CategoryUpdate).slug = none ∧
    (updateCategory demoStore "c1" { name := some "New" }).2.map Category.slug =
      some "new" ∧
    ¬ ((updateCategory demoStore "c1" { name := some "New" }).2.map Category.slug =
      some demoCategory.slug) := by
  refine ⟨rfl, ?_, ?_⟩ <;> with_unfolding_all decide

/-- C10 amended: in every partial-update operation a key present in the
partial overwrites the stored field with the supplied value — including
`undefined` (`some none`), which clears an optional field — and keys absent
from the partial preserve the stored field, except the derived `slug`
field, which is recomputed whenever a (truthy) name/title key is supplied
even though the `slug` key itself is absent. -/
theorem partial_update_amended :
    (∀ (s : DataStore) (id : String) (u : CategoryUpdate) (c : Category) (q : Category),
      mapGet Category.id s.categories id = some c → (updateCategory s id u).2 = some q →
      (∀ v, u.parentId = some v → q.parentId = v) ∧
      (u.parentId = none → q.parentId = c.parentId) ∧
      (∀ v, u.description = some v → q.description = v) ∧
      (u.description = none → q.description = c.description) ∧
      (u.name = none → q.name = c.name) ∧
      (u.name = none → u.slug = none → q.slug = c.slug)) ∧
    (∀ (s : DataStore) (id : String) (u : ProductUpdate) (p : Product) (q : Product),
      mapGet Product.id s.products id = some p → (updateProduct s id u).2 = some q →
      (∀ v, u.customTemplate = some v → q.customTemplate = v) ∧
      (u.customTemplate = none → q.customTemplate = p.customTemplate) ∧
      (u.price = none → q.price = p.price) ∧
      (∀ l, u.categoryIds = some l → q.categoryIds = l)) ∧
    (∀ (s : DataStore) (id : String) (u : PageUpdate) (p : CustomPage) (q : CustomPage),
      mapGet CustomPage.id s.pages id = some p → (updatePage s id u).2 = some q →
      (∀ v, u.content = some v → q.content = v) ∧
      (u.content = none → q.content = p.content) ∧
      (u.template = none → q.template = p.template)) ∧
    (∀ (s : DataStore) (u : SettingsUpdate),
      (u.headerHtml = none → (updateSettings s u).2.headerHtml = s.settings.headerHtml) ∧
      (∀ v, u.headerHtml = some v → (updateSettings s u).2.headerHtml = v) ∧
      (u.paymentGateways = none →
        (updateSettings s u).2.paymentGateways = s.settings.paymentGateways) ∧
      (∀ l, u.paymentGateways = some l → (updateSettings s u).2.paymentGateways = l)) := by
  refine ⟨?_, ?_, ?_, ?_⟩
  · intro s id u c q hc hq
    rw [updateCategory_found s id u c hc] at hq
    obtain rfl := (Option.some.inj hq).symm
    refine ⟨?_, ?_, ?_, ?_, ?_, ?_⟩
    · intro v hv; rw [applyCategoryUpdate_parentId, hv]; rfl
    · intro hv; rw [applyCategoryUpdate_parentId, hv]; rfl
    · intro v hv; rw [applyCategoryUpdate_description, hv]; rfl
    · intro hv; rw [applyCategoryUpdate_description, hv]; rfl
    · intro hv; rw [applyCategoryUpdate_name, hv]; rfl
    · intro hn hs; rw [applyCategoryUpdate_slug_of_name_none c u hn, hs]; rfl
  · intro s id u p q hp hq
    rw [updateProduct_found s id u p hp] at hq
    obtain rfl := (Option.some.inj hq).symm
    refine ⟨?_, ?_, ?_, ?_⟩
    · intro v hv; rw [applyProductUpdate_customTemplate, hv]; rfl
    · intro hv; rw [applyProductUpdate_customTemplate, hv]; rfl
    · intro hv; rw [applyProductUpdate_price, hv]; rfl
    · intro l hl; rw [applyProductUpdate_categoryIds, hl]; rfl
  · intro s id u p q hp hq
    rw [updatePage_found s id u p hp] at hq
    obtain rfl := (Option.some.inj hq).symm
    refine ⟨?_, ?_, ?_⟩
    · intro v hv; rw [applyPageUpdate_content, hv]; rfl
    · intro hv; rw [applyPageUpdate_content, hv]; rfl
    · intro hv; rw [applyPageUpdate_template, hv]; rfl
  · intro s u
    refine ⟨?_, ?_, ?_, ?_⟩
    · intro hv; simp [updateSettings, hv]
    · intro v hv; simp [updateSettings, hv]
    · intro hv; simp [updateSettings, hv]
    · intro l hl; simp [updateSettings, hl]

/-- C10 witness: `updateCategory(id, {parentId: undefined})` detaches the
demo child category `c2` from its parent `c1`. -/
theorem partial_update_amended_witness :
    (applyCategoryUpdate demoCategory2 { parentId := some none }).parentId = none :=
  ((partial_update_amended.1 demoStore "c2" { parentId := some none } demoCategory2
      (applyCategoryUpdate demoCategory2 { parentId := some none })
      (by with_unfolding_all rfl) (by with_unfolding_all rfl)).1) none rfl

/-! ### C4: decode is fail-soft -/

theorem jsonParse_empty : jsonParse "" = none := rfl

/-- C4: decode of an absent or empty cookie, of unparseable input, or of
input whose top-level shape is not an array is the empty cart (and, the
function being total, no parse error ever reaches the caller); in
particular the spec's four examples all decode to the empty cart. -/
theorem cart_decode_fail_soft :
    parseCartItems none = [] ∧
    parseCartItems (some "") = [] ∧
    (∀ s : String, jsonParse s = none → parseCartItems (some s) = []) ∧
    (∀ (s : String) (j : JsonVal), jsonParse s = some j → j.isArr = false →
      parseCartItems (some s) = []) ∧
    parseCartItems (some "not json") = [] ∧
    parseCartItems (some "[1,2,3]") = [] := by
  refine ⟨rfl, rfl, ?_, ?_, by with_unfolding_all rfl, by with_unfolding_all rfl⟩
  · intro s h
    by_cases he : s = ""
    · subst he; rfl
    · simp only [parseCartItems, if_neg he, h]
  · intro s j h harr
    by_cases he : s = ""
    · subst he; rfl
    · simp only [parseCartItems, if_neg he, h]
      cases j <;> simp_all [parseCartJson, JsonVal.isArr]

/-- C4 witness: the fail-soft clauses applied at the concrete inputs
`"x"` (a parse failure) and `"\x7b\x7d"` (parses, but not a sequence). -/
theorem cart_decode_fail_soft_witness :
    parseCartItems (some "x") = [] ∧ parseCartItems (some "\x7b\x7d") = [] :=
  ⟨cart_decode_fail_soft.2.2.1 "x" (by with_unfolding_all rfl),
   cart_decode_fail_soft.2.2.2.1 "\x7b\x7d" (JsonVal.obj [])
     (by with_unfolding_all rfl) rfl⟩

/-! ### C5: decode element sanitization -/

theorem sanitizeElem_ok_of_ne_null (j : JsonVal) (h : j ≠ JsonVal.null) :
    sanitizeElem j = Except.ok (coerceItem j) := by
  cases j <;> simp_all [sanitizeElem]

theorem mapAll_ok (xs : List JsonVal) (h : JsonVal.null ∉ xs) :
    mapAll xs = Except.ok (xs.map coerceItem) := by
  induction xs with
  | nil => rfl
  | cons j rest ih =>
    have hj : j ≠ JsonVal.null := fun he => h (he ▸ List.mem_cons_self j rest)
    have hr : JsonVal.null ∉ rest := fun hm => h (List.mem_cons_of_mem j hm)
    simp only [mapAll, sanitizeElem_ok_of_ne_null j hj, ih hr, List.map_cons]

/-- C5 counterexample: (i) the quantity is *not* coerced to an integer —
`Number(0.5)` is finite and kept as-is, so a decoded item can have the
fractional quantity `1/2 < 1`; (ii) the elements are *not* dropped
one-by-one — property access on a `null` element throws, and the caught
exception empties the whole cart, dropping a perfectly valid sibling. -/
theorem cart_decode_sanitize_cex :
    parseCartItems (some "[\x7b\"productId\":\"p\",\"quantity\":0.5\x7d]") =
      [{ productId := "p", quantity := 1/2 }] ∧
    ¬ ((1 : ℚ) ≤ 1/2) ∧
    parseCartItems (some "[null,\x7b\"productId\":\"p\",\"quantity\":1\x7d]") = [] := by
  refine ⟨?_, ?_, ?_⟩ <;> with_unfolding_all decide

/-- C5 amended: for an input that parses to a sequence with no `null`
element, decode coerces each element's productId to text (empty when not a
string) and quantity through JS numeric coercion (`0` when not a finite
number, fractional values kept), then drops exactly the elements with empty
productId or quantity ≤ 0; a `null` element instead faults the whole map
and yields the empty cart.  Every decoded item has a non-empty productId
and quantity > 0 (not necessarily an integer). -/
theorem cart_decode_sanitize_amended :
    (∀ xs : List JsonVal, JsonVal.null ∉ xs →
      parseCartJson (JsonVal.arr xs) = (xs.map coerceItem).filter keepItem) ∧
    (∀ xs : List JsonVal, JsonVal.null ∈ xs → parseCartJson (JsonVal.arr xs) = []) ∧
    (∀ (j : JsonVal) (i : CartItem), i ∈ parseCartJson j →
      ¬ i.productId = "" ∧ 0 < i.quantity) := by
  refine ⟨?_, ?_, ?_⟩
  · intro xs h
    simp only [parseCartJson, mapAll_ok xs h]
  · intro xs h
    simp only [parseCartJson]
    have : mapAll xs = Except.error () := by
      induction xs with
      | nil => cases h
      | cons j rest ih =>
        rcases List.mem_cons.mp h with he | hm
        · simp [mapAll, ← he, sanitizeElem]
        · simp only [mapAll, ih hm]
          cases sanitizeElem j <;> rfl
    rw [this]
  · intro j i hi
    cases j <;> simp only [parseCartJson] at hi
    case arr xs =>
      cases hm : mapAll xs with
      | error e => rw [hm] at hi; cases hi
      | ok items =>
        rw [hm] at hi
        have := List.of_mem_filter hi
        simpa [keepItem] using this
    all_goals cases hi

/-- C5 witness: the sanitize description applied to a concrete two-element
sequence (one junk element, one valid), and the positivity clause applied
to the decoded valid item. -/
theorem cart_decode_sanitize_amended_witness :
    parseCartJson (JsonVal.arr [JsonVal.num 7,
      JsonVal.obj [("productId", JsonVal.str "p"), ("quantity", JsonVal.num 2)]]) =
      ([JsonVal.num 7,
        JsonVal.obj [("productId", JsonVal.str "p"), ("quantity", JsonVal.num 2)]].map
          coerceItem).filter keepItem ∧
    (¬ ({ productId := "p", quantity := 2 } : CartItem).productId = "" ∧
      (0 : ℚ) < ({ productId := "p", quantity := 2 } : CartItem).quantity) := by
  constructor
  · exact cart_decode_sanitize_amended.1 _ (by
      intro h
      rcases List.mem_cons.mp h with he | hm
      · cases he
      · rcases List.mem_cons.mp hm with he2 | hm2
        · cases he2
        · cases hm2)
  · exact cart_decode_sanitize_amended.2.2
      (JsonVal.arr [JsonVal.num 7,
        JsonVal.obj [("productId", JsonVal.str "p"), ("quantity", JsonVal.num 2)]]) _
      (by with_unfolding_all decide)

/-! ### C1: cart codec round-trip -/

theorem sanitizeElem_itemJson (i : CartItem) :
    sanitizeElem (itemJson i) = Except.ok i := rfl

theorem mapAll_itemJson (l : List CartItem) :
    mapAll (l.map itemJson) = Except.ok l := by
  induction l with
  | nil => rfl
  | cons i rest ih =>
    simp only [List.map_cons, mapAll, sanitizeElem_itemJson, ih]

/-- Decoding the encoded payload keeps exactly the items passing the decode
filter (non-empty productId *and* positive quantity), in order. -/
theorem parseCartJson_writeCartItems (items : List CartItem) :
    parseCartJson (writeCartItems items) = items.filter keepItem := by
  simp only [writeCartItems, parseCartJson, mapAll_itemJson, List.filter_filter]
  apply List.filter_congr
  intro i _
  by_cases h : (0 : ℚ) < i.quantity <;> simp [keepItem, h]

/-- C1 amended: for every cart list and every cookie text `s` that
`JSON.parse` reads back as the encoded payload (the text transport of
`JSON.stringify` is value-faithful), decode(encode(items)) equals the input
with the items having quantity ≤ 0 *or an empty productId* dropped — in
particular every item with a non-empty productId and positive quantity is
preserved unchanged, in order. -/
theorem cart_roundtrip_amended (items : List CartItem) (s : String)
    (h : jsonParse s = some (writeCartItems items)) :
    parseCartItems (some s) = items.filter keepItem := by
  have hne : ¬ s = "" := by
    intro he
    subst he
    rw [jsonParse_empty] at h
    cases h
  simp only [parseCartItems, if_neg hne, h]
  exact parseCartJson_writeCartItems items

/-- C1 counterexample: the item `{productId: "", quantity: 1}` has positive
quantity, survives `writeCartItems` (which filters only on quantity), and
is readable back from the cookie text, yet decode drops it — the round
trip loses an input item whose quantity is > 0. -/
theorem cart_roundtrip_cex :
    jsonParse "[\x7b\"productId\":\"\",\"quantity\":1\x7d]" =
      some (writeCartItems [{ productId := "", quantity := 1 }]) ∧
    ([{ productId := "", quantity := 1 }] : List CartItem).filter
      (fun i => decide (0 < i.quantity)) = [{ productId := "", quantity := 1 }] ∧
    parseCartItems (some "[\x7b\"productId\":\"\",\"quantity\":1\x7d]") = [] ∧
    ([] : List CartItem) ≠ [{ productId := "", quantity := 1 }] := by
  refine ⟨?_, ?_, ?_, ?_⟩
  · with_unfolding_all rfl
  · with_unfolding_all decide
  · with_unfolding_all rfl
  · decide

/-- C1 witness: the round trip at a concrete two-item cart (one valid item,
one with quantity 0) through its concrete cookie text. -/
theorem cart_roundtrip_amended_witness :
    parseCartItems (some "[\x7b\"productId\":\"p1\",\"quantity\":2\x7d]") =
      ([{ productId := "p1", quantity := 2 }, { productId := "q", quantity := 0 }] :
        List CartItem).filter keepItem :=
  cart_roundtrip_amended _ _ (by with_unfolding_all rfl)

/-! ### C6/C7: addItem merge and rejection -/

theorem incFirst_length (l : List CartItem) (pid : String) (q : ℚ) :
    (incFirst l pid q).length = l.length := by
  induction l with
  | nil => rfl
  | cons i rest ih =>
    simp only [incFirst]
    by_cases h : (i.productId == pid) = true <;> simp [h, ih]

/-- C6: addItem normalizes the quantity to at least 1; for a resolving
productId it appends one new entry when no item matches, and otherwise
rewrites the list through `incFirst` (same length — no duplicate append;
the first matching item's quantity grows by the normalized amount);
including the spec's two concrete examples on the demo store. -/
theorem addItem_merge :
    (∀ qraw : Option String, 1 ≤ normalizeQty qraw) ∧
    (∀ (items : List CartItem) (pid : String) (p : Product) (qraw : Option String)
      (s : DataStore), getProduct s pid = some p →
      (∀ i ∈ items, ¬ i.productId = p.id) →
      addItem items (some pid) qraw s =
        items ++ [{ productId := p.id, quantity := ((normalizeQty qraw : ℤ) : ℚ) }]) ∧
    (∀ (items : List CartItem) (pid : String) (p : Product) (qraw : Option String)
      (s : DataStore), getProduct s pid = some p →
      (∃ i ∈ items, i.productId = p.id) →
      addItem items (some pid) qraw s = incFirst items p.id ((normalizeQty qraw : ℤ) : ℚ) ∧
      (addItem items (some pid) qraw s).length = items.length) ∧
    (∀ (i : CartItem) (rest : List CartItem) (pid : String) (q : ℚ), i.productId = pid →
      incFirst (i :: rest) pid q = { i with quantity := i.quantity + q } :: rest) ∧
    addItem [] (some "p1") (some "2") demoStore = [{ productId := "p1", quantity := 2 }] ∧
    addItem [{ productId := "p1", quantity := 2 }] (some "p1") (some "3") demoStore =
      [{ productId := "p1", quantity := 5 }] := by
  refine ⟨?_, ?_, ?_, ?_, ?_, ?_⟩
  · intro qraw
    exact le_max_left 1 _
  · intro items pid p qraw s hp hno
    have hany : (items.any fun i => i.productId == p.id) = false := by
      rw [List.any_eq_false]
      intro i hi
      simpa using hno i hi
    simp only [addItem, hp, hany]
    rfl
  · intro items pid p qraw s hp hyes
    have hany : (items.any fun i => i.productId == p.id) = true := by
      rw [List.any_eq_true]
      obtain ⟨i, hi, he⟩ := hyes
      exact ⟨i, hi, by simpa using he⟩
    simp only [addItem, hp, hany]
    exact ⟨rfl, incFirst_length items p.id _⟩
  · intro i rest pid q h
    simp [incFirst, h]
  · with_unfolding_all decide
  · with_unfolding_all decide

/-- C6 witness: the quantity clause at a non-numeric input and the append
clause at a cart not containing `p1`. -/
theorem addItem_merge_witness :
    1 ≤ normalizeQty (some "abc") ∧
    addItem [{ productId := "zz", quantity := 1 }] (some "p1") (some "2") demoStore =
      [{ productId := "zz", quantity := 1 },
       { productId := "p1", quantity := ((normalizeQty (some "2") : ℤ) : ℚ) }] :=
  ⟨addItem_merge.1 (some "abc"),
   addItem_merge.2.1 [{ productId := "zz", quantity := 1 }] "p1" demoProduct (some "2")
     demoStore (by with_unfolding_all rfl) (by with_unfolding_all decide)⟩

/-- C7: addItem with a productId that does not resolve to a product in the
catalog store (or with a non-string productId) leaves the cart exactly as
it was. -/
theorem addItem_reject (items : List CartItem) (pid : String) (qraw : Option String)
    (s : DataStore) (h : getProduct s pid = none) :
    addItem items (some pid) qraw s = items ∧ addItem items none qraw s = items := by
  constructor
  · simp only [addItem, h]
  · rfl

/-- C7 witness: adding `"missing-id"` to a non-empty cart over the demo
store returns the cart unchanged. -/
theorem addItem_reject_witness :
    addItem [{ productId := "p1", quantity := 2 }] (some "missing-id") (some "1")
      demoStore = [{ productId := "p1", quantity := 2 }] :=
  (addItem_reject [{ productId := "p1", quantity := 2 }] "missing-id" (some "1")
    demoStore (by with_unfolding_all rfl)).1

/-! ### C8: addItem and its input (reference model) -/

theorem heapRead_extend (h : CartHeap) (n : Nat) (x : CartItem) (r : Nat) (hr : ¬ r = n) :
    heapRead { cells := h.cells ++ [(n, x)], fresh := h.fresh + 1 } r = heapRead h r := by
  have hb : (n == r) = false := by simpa using fun he : n = r => hr he.symm
  simp only [heapRead]
  induction h.cells with
  | nil =>
    simp [List.find?, hb]
  | cons c rest ih =>
    simp only [List.cons_append, List.find?]
    cases hc : (c.1 == r) with
    | true => rfl
    | false => exact ih

theorem readCart_extend (h : CartHeap) (ids : List Nat) (n : Nat) (x : CartItem)
    (hids : ∀ r ∈ ids, ¬ r = n) :
    readCart { cells := h.cells ++ [(n, x)], fresh := h.fresh + 1 } ids = readCart h ids := by
  induction ids with
  | nil => rfl
  | cons r rest ih =>
    simp only [readCart, List.filterMap_cons] at *
    rw [heapRead_extend h n x r (hids r (List.mem_cons_self r rest)),
      ih (fun r' hr' => hids r' (List.mem_cons_of_mem r hr'))]

/-- C8 counterexample: merging quantity 3 into a cart that already holds
`p1` rewrites the shared item record in place — reading the *caller's*
input list through the post-call heap shows quantity 5, not the original 2,
so the records contained in the input list are modified by the call. -/
theorem addItem_ref_cex :
    readCart cexHeap [0] = [{ productId := "p1", quantity := 2 }] ∧
    readCart (addItemRef cexHeap [0] (some "p1") (some "3") demoStore).1 [0] =
      [{ productId := "p1", quantity := 5 }] ∧
    readCart (addItemRef cexHeap [0] (some "p1") (some "3") demoStore).1 [0] ≠
      readCart cexHeap [0] := by
  refine ⟨?_, ?_, ?_⟩ <;> with_unfolding_all decide

/-- C8 amended: a rejected call leaves heap and list untouched; when no item
matches, the updated list is the input plus one fresh record and the input
list's records are unchanged; but when an item for the productId already
exists, the returned list is the input list itself and the matched record —
shared with the caller's input — has its quantity incremented in place. -/
theorem addItem_ref_amended :
    (∀ (h : CartHeap) (ids : List Nat) (qraw : Option String) (s : DataStore),
      addItemRef h ids none qraw s = (h, ids)) ∧
    (∀ (h : CartHeap) (ids : List Nat) (pid : String) (qraw : Option String)
      (s : DataStore), getProduct s pid = none →
      addItemRef h ids (some pid) qraw s = (h, ids)) ∧
    (∀ (h : CartHeap) (ids : List Nat) (pid : String) (p : Product)
      (qraw : Option String) (s : DataStore), getProduct s pid = some p →
      findRef h ids p.id = none → (∀ r ∈ ids, r < h.fresh) →
      (addItemRef h ids (some pid) qraw s).2 = ids ++ [h.fresh] ∧
      readCart (addItemRef h ids (some pid) qraw s).1 ids = readCart h ids) ∧
    (∀ (h : CartHeap) (ids : List Nat) (pid : String) (p : Product) (r : Nat)
      (qraw : Option String) (s : DataStore), getProduct s pid = some p →
      findRef h ids p.id = some r →
      (addItemRef h ids (some pid) qraw s).2 = ids ∧
      (addItemRef h ids (some pid) qraw s).1 =
        heapInc h r ((normalizeQty qraw : ℤ) : ℚ)) := by
  refine ⟨?_, ?_, ?_, ?_⟩
  · intro h ids qraw s
    rfl
  · intro h ids pid qraw s hp
    simp only [addItemRef, hp]
  · intro h ids pid p qraw s hp hf hlt
    simp only [addItemRef, hp, hf]
    refine ⟨by trivial, ?_⟩
    exact readCart_extend h ids h.fresh _ (fun r hr => Nat.ne_of_lt (hlt r hr))
  · intro h ids pid p r qraw s hp hf
    simp only [addItemRef, hp, hf]
    exact ⟨by trivial, by trivial⟩

/-- C8 witness: the merge clause applied at the concrete one-record heap. -/
theorem addItem_ref_amended_witness :
    (addItemRef cexHeap [0] (some "p1") (some "3") demoStore).2 = [0] ∧
    (addItemRef cexHeap [0] (some "p1") (some "3") demoStore).1 =
      heapInc cexHeap 0 ((normalizeQty (some "3") : ℤ) : ℚ) :=
  addItem_ref_amended.2.2.2 cexHeap [0] "p1" demoProduct 0 (some "3") demoStore
    (by with_unfolding_all rfl) (by with_unfolding_all rfl)

/-! ### C9: cart pricing -/

theorem foldl_add_lineTotal (ls : List PricedLine) (a : ℚ) :
    ls.foldl (fun sum l => sum + l.lineTotal) a = a + (ls.map PricedLine.lineTotal).sum := by
  induction ls generalizing a with
  | nil => simp
  | cons l rest ih => simp [ih, add_assoc]

/-- C9: every priced line satisfies `lineTotal = price * quantity`; the
returned total is the sum of the line totals; items whose product is gone
from the catalog contribute no line (the line count equals the number of
resolvable items); and the spec's concrete example — quantity 2 of the
10.00-priced demo product gives one line totalling 20, and pricing the same
cart after the product is removed gives no lines and total 0. -/
theorem priceCart_correct :
    (∀ (items : List CartItem) (s : DataStore) (l : PricedLine),
      l ∈ (priceCart items s).1 → l.lineTotal = l.product.price * l.quantity) ∧
    (∀ (items : List CartItem) (s : DataStore),
      (priceCart items s).2 = ((priceCart items s).1.map PricedLine.lineTotal).sum) ∧
    (∀ (items : List CartItem) (s : DataStore),
      (priceCart items s).1.length =
        (items.filter (fun i => (getProduct s i.productId).isSome)).length) ∧
    (priceCart [{ productId := "p1", quantity := 2 }] demoStore).1 =
      [{ product := demoProduct, quantity := 2, lineTotal := 20 }] ∧
    (priceCart [{ productId := "p1", quantity := 2 }] demoStore).2 = 20 ∧
    priceCart [{ productId := "p1", quantity := 2 }] (removeProduct demoStore "p1") =
      ([], 0) := by
  refine ⟨?_, ?_, ?_, ?_, ?_, ?_⟩
  · intro items s l hl
    simp only [priceCart, List.mem_filterMap] at hl
    obtain ⟨i, _, hi⟩ := hl
    cases hp : getProduct s i.productId with
    | none => rw [hp] at hi; cases hi
    | some p =>
      rw [hp] at hi
      obtain rfl := (Option.some.inj hi).symm
      rfl
  · intro items s
    simp only [priceCart]
    rw [foldl_add_lineTotal, zero_add]
  · intro items s
    induction items with
    | nil => rfl
    | cons i rest ih =>
      simp only [priceCart, List.filterMap_cons, List.filter_cons] at *
      cases hp : getProduct s i.productId <;> simp [hp] at ih ⊢ <;> omega
  · with_unfolding_all decide
  · with_unfolding_all decide
  · with_unfolding_all decide

/-- C9 witness: the line-shape clause applied to the concrete priced line of
the demo cart, and the total clause at the demo cart. -/
theorem priceCart_correct_witness :
    ({ product := demoProduct, quantity := 2, lineTotal := 20 } : PricedLine).lineTotal =
      ({ product := demoProduct, quantity := 2, lineTotal := 20 } : PricedLine).product.price *
      ({ product := demoProduct, quantity := 2, lineTotal := 20 } : PricedLine).quantity ∧
    (priceCart [{ productId := "p1", quantity := 2 }] demoStore).2 =
      ((priceCart [{ productId := "p1", quantity := 2 }] demoStore).1.map
        PricedLine.lineTotal).sum :=
  ⟨priceCart_correct.1 [{ productId := "p1", quantity := 2 }] demoStore _
      (by with_unfolding_all decide),
   priceCart_correct.2.1 [{ productId := "p1", quantity := 2 }] demoStore⟩
